import Mathlib

/-!
Shallow embedding of the retry-herd-prevention components and proofs about
them: the token-bucket pacer, the circuit breaker, the AIMD rate controller,
the sliding-window collector, the retry strategy, and the simulated
dispatcher's per-item retry lifecycle.

Numbers follow the JavaScript sources: general quantities are modelled as
rationals (`ℚ`), timestamps in milliseconds as integers or rationals, and
counters as naturals.
-/

/-! ## Token bucket (lib/TokenBucket.js) -/

/-- State of `TokenBucket`: fields `capacity`, `tokens`, `rate`, `lastRefill`
exactly as in the constructor. -/
structure TokenBucket where
  capacity : ℚ
  tokens : ℚ
  rate : ℚ
  lastRefill : ℚ
deriving DecidableEq, Repr

/-- `new TokenBucket(ratePerSec)` created at time `now`. -/
def TokenBucket.init (ratePerSec now : ℚ) : TokenBucket :=
  { capacity := ratePerSec, tokens := ratePerSec, rate := ratePerSec, lastRefill := now }

/-- `setRate(ratePerSec)`: reset `capacity` and `rate`, clamp `tokens` from
above by the new capacity. -/
def TokenBucket.setRate (b : TokenBucket) (ratePerSec : ℚ) : TokenBucket :=
  { b with capacity := ratePerSec, rate := ratePerSec,
           tokens := min b.tokens ratePerSec }

/-- `refill()` at time `now`: `deltaSeconds = (now - lastRefill) / 1000`,
`tokens = min(capacity, tokens + deltaSeconds * rate)`, `lastRefill = now`.
The elapsed time is NOT clamped to non-negative in the source. -/
def TokenBucket.refill (b : TokenBucket) (now : ℚ) : TokenBucket :=
  let deltaSeconds := (now - b.lastRefill) / 1000
  { b with tokens := min b.capacity (b.tokens + deltaSeconds * b.rate),
           lastRefill := now }

/-- `tryTake()` at time `now`: refill, then consume one token if at least one
is available; returns whether a token was consumed, with the new state. -/
def TokenBucket.tryTake (b : TokenBucket) (now : ℚ) : Bool × TokenBucket :=
  let b' := b.refill now
  if 1 ≤ b'.tokens then (true, { b' with tokens := b'.tokens - 1 })
  else (false, b')

/-- One iteration of `take()`'s waiting loop at time `now`: refill, consume a
token if available (ending the loop), otherwise sleep and loop again.  The
state effect of each iteration is captured here; the blocking itself is a
scheduling concern. -/
def TokenBucket.takeStep (b : TokenBucket) (now : ℚ) : Bool × TokenBucket :=
  let b' := b.refill now
  if 1 ≤ b'.tokens then (true, { b' with tokens := b'.tokens - 1 })
  else (false, b')

/-- `getAvailableTokens()` at time `now`: refill, return `Math.floor(tokens)`
together with the new state. -/
def TokenBucket.getAvailableTokens (b : TokenBucket) (now : ℚ) : ℤ × TokenBucket :=
  let b' := b.refill now
  (⌊b'.tokens⌋, b')

/-- One pacer operation tagged with the wall-clock instant at which it runs
(`take` is represented by the iterations of its waiting loop). -/
inductive PacerOp where
  | takeStep (now : ℚ)
  | tryTake (now : ℚ)
  | setRate (r : ℚ)
  | getAvailableTokens (now : ℚ)
deriving DecidableEq, Repr

/-- State effect of one pacer operation. -/
def PacerOp.apply (b : TokenBucket) : PacerOp → TokenBucket
  | .takeStep now => (b.takeStep now).2
  | .tryTake now => (b.tryTake now).2
  | .setRate r => b.setRate r
  | .getAvailableTokens now => (b.getAvailableTokens now).2

/-- Apply a sequence of pacer operations. -/
def applyPacerOps (b : TokenBucket) : List PacerOp → TokenBucket
  | [] => b
  | op :: ops => applyPacerOps (op.apply b) ops

/-- An operation is well-timed in state `b` when its timestamp does not lie
before the bucket's last refill instant (monotone clock), and any rate it
installs is non-negative. -/
def PacerOp.Valid (b : TokenBucket) : PacerOp → Prop
  | .takeStep now => b.lastRefill ≤ now
  | .tryTake now => b.lastRefill ≤ now
  | .setRate r => 0 ≤ r
  | .getAvailableTokens now => b.lastRefill ≤ now

/-- Validity of a whole operation sequence from state `b`. -/
def ValidPacerOps (b : TokenBucket) : List PacerOp → Prop
  | [] => True
  | op :: ops => op.Valid b ∧ ValidPacerOps (op.apply b) ops

/-- The token-count invariant together with non-negativity of the rate
(needed to preserve it across refills). -/
def TokenBucket.Inv (b : TokenBucket) : Prop :=
  0 ≤ b.tokens ∧ b.tokens ≤ b.capacity ∧ 0 ≤ b.rate

theorem TokenBucket.refill_inv (b : TokenBucket) (now : ℚ)
    (hb : b.Inv) (hc : b.lastRefill ≤ now) : (b.refill now).Inv := by
  obtain ⟨h0, hcap, hr⟩ := hb
  refine ⟨?_, ?_, hr⟩
  · have hδ : 0 ≤ (now - b.lastRefill) / 1000 := by
      apply div_nonneg (by linarith) (by norm_num)
    have : 0 ≤ (now - b.lastRefill) / 1000 * b.rate := mul_nonneg hδ hr
    have hcap0 : 0 ≤ b.capacity := le_trans h0 hcap
    simp only [TokenBucket.refill, le_min_iff]
    constructor
    · exact hcap0
    · linarith
  · simp [TokenBucket.refill]

theorem TokenBucket.takeStep_inv (b : TokenBucket) (now : ℚ)
    (hb : b.Inv) (hc : b.lastRefill ≤ now) : ((b.takeStep now)).2.Inv := by
  have h := b.refill_inv now hb hc
  obtain ⟨h0, hcap, hr⟩ := h
  simp only [TokenBucket.takeStep]
  split
  · refine ⟨?_, ?_, ?_⟩ <;> dsimp only <;> first | exact hr | linarith
  · exact ⟨h0, hcap, hr⟩

theorem TokenBucket.tryTake_inv (b : TokenBucket) (now : ℚ)
    (hb : b.Inv) (hc : b.lastRefill ≤ now) : ((b.tryTake now)).2.Inv :=
  b.takeStep_inv now hb hc

theorem TokenBucket.setRate_inv (b : TokenBucket) (r : ℚ)
    (hb : b.Inv) (hr : 0 ≤ r) : (b.setRate r).Inv := by
  obtain ⟨h0, hcap, _⟩ := hb
  exact ⟨le_min h0 hr, by simp [TokenBucket.setRate], hr⟩

theorem TokenBucket.getAvailableTokens_inv (b : TokenBucket) (now : ℚ)
    (hb : b.Inv) (hc : b.lastRefill ≤ now) : ((b.getAvailableTokens now)).2.Inv :=
  b.refill_inv now hb hc

theorem PacerOp.apply_inv (b : TokenBucket) (op : PacerOp)
    (hb : b.Inv) (hv : op.Valid b) : (op.apply b).Inv := by
  cases op with
  | takeStep now => exact b.takeStep_inv now hb hv
  | tryTake now => exact b.tryTake_inv now hb hv
  | setRate r => exact b.setRate_inv r hb hv
  | getAvailableTokens now => exact b.getAvailableTokens_inv now hb hv

theorem applyPacerOps_inv (ops : List PacerOp) (b : TokenBucket)
    (hb : b.Inv) (hv : ValidPacerOps b ops) : (applyPacerOps b ops).Inv := by
  induction ops generalizing b with
  | nil => exact hb
  | cons op ops ih =>
    obtain ⟨h1, h2⟩ := hv
    exact ih (op.apply b) (op.apply_inv b hb h1) h2

theorem validPacerOps_append_left (b : TokenBucket) (pre post : List PacerOp)
    (h : ValidPacerOps b (pre ++ post)) : ValidPacerOps b pre := by
  induction pre generalizing b with
  | nil => trivial
  | cons op ops ih =>
    obtain ⟨h1, h2⟩ := h
    exact ⟨h1, ih (op.apply b) h2⟩

/-! ## Circuit breaker (lib/CircuitBreaker.js) -/

/-- The three breaker states. -/
inductive CBState where
  | Closed
  | Open
  | HalfOpen
deriving DecidableEq, Repr

/-- State of `CircuitBreaker`: mutable fields plus the configurable
thresholds from the constructor (defaults 10 / 30000 / 10000 / 3). -/
structure CircuitBreaker where
  state : CBState
  openedAt : ℤ
  halfOpenUntil : ℤ
  consecutiveFailures : ℕ
  failureThreshold : ℕ
  openDurationMs : ℤ
  halfOpenDurationMs : ℤ
  halfOpenProbeLimit : ℕ
deriving DecidableEq, Repr

/-- `new CircuitBreaker()` with all defaults. -/
def CircuitBreaker.init : CircuitBreaker :=
  { state := .Closed, openedAt := 0, halfOpenUntil := 0, consecutiveFailures := 0,
    failureThreshold := 10, openDurationMs := 30000, halfOpenDurationMs := 10000,
    halfOpenProbeLimit := 3 }

/-- `shouldBlock()` at time `now`: in `Open`, either advance to `HalfOpen`
(timer expired: set `halfOpenUntil`, reset the failure counter, report not
blocking) or keep blocking; otherwise never block. -/
def CircuitBreaker.shouldBlock (cb : CircuitBreaker) (now : ℤ) : Bool × CircuitBreaker :=
  if cb.state = .Open then
    if cb.openDurationMs ≤ now - cb.openedAt then
      (false, { cb with state := .HalfOpen,
                        halfOpenUntil := now + cb.halfOpenDurationMs,
                        consecutiveFailures := 0 })
    else (true, cb)
  else (false, cb)

/-- `onSuccess()` at time `now`: reset the failure counter; in `HalfOpen`
past `halfOpenUntil`, close the breaker. -/
def CircuitBreaker.onSuccess (cb : CircuitBreaker) (now : ℤ) : CircuitBreaker :=
  let cb' := { cb with consecutiveFailures := 0 }
  if cb'.state = .HalfOpen ∧ cb'.halfOpenUntil < now then
    { cb' with state := .Closed }
  else cb'

/-- `onFailure()` at time `now`: increment the failure counter; open from
`Closed` when the threshold is reached, and reopen from `HalfOpen`. -/
def CircuitBreaker.onFailure (cb : CircuitBreaker) (now : ℤ) : CircuitBreaker :=
  let cb' := { cb with consecutiveFailures := cb.consecutiveFailures + 1 }
  if cb'.state = .Closed ∧ cb'.failureThreshold ≤ cb'.consecutiveFailures then
    { cb' with state := .Open, openedAt := now }
  else if cb'.state = .HalfOpen then
    { cb' with state := .Open, openedAt := now }
  else cb'

/-- `getState()` at time `now`: the object literal reads `state` and
`consecutiveFailures` from the pre-state, then evaluates
`isBlocking: this.shouldBlock()`, whose state changes persist. -/
def CircuitBreaker.getState (cb : CircuitBreaker) (now : ℤ) :
    (CBState × ℕ × Bool) × CircuitBreaker :=
  let r := cb.shouldBlock now
  ((cb.state, cb.consecutiveFailures, r.1), r.2)

/-- The transition relation claimed for the breaker:
`Closed → Closed|Open`, `Open → Open|HalfOpen`,
`HalfOpen → HalfOpen|Open|Closed`. -/
def CBAllowed : CBState → CBState → Prop
  | .Closed, s => s = .Closed ∨ s = .Open
  | .Open, s => s = .Open ∨ s = .HalfOpen
  | .HalfOpen, s => s = .HalfOpen ∨ s = .Open ∨ s = .Closed

theorem cbAllowed_shouldBlock (cb : CircuitBreaker) (now : ℤ) :
    CBAllowed cb.state ((cb.shouldBlock now).2).state := by
  unfold CircuitBreaker.shouldBlock
  cases h : cb.state <;> simp [h, CBAllowed] <;> split_ifs <;> simp [h, CBAllowed]

theorem cbAllowed_onSuccess (cb : CircuitBreaker) (now : ℤ) :
    CBAllowed cb.state ((cb.onSuccess now)).state := by
  unfold CircuitBreaker.onSuccess
  cases h : cb.state <;> simp [h, CBAllowed] <;> split_ifs <;> simp [h, CBAllowed]

theorem cbAllowed_onFailure (cb : CircuitBreaker) (now : ℤ) :
    CBAllowed cb.state ((cb.onFailure now)).state := by
  unfold CircuitBreaker.onFailure
  cases h : cb.state <;> simp [h, CBAllowed] <;> split_ifs <;> simp [h, CBAllowed]

/-- C7: every circuit-breaker operation (`shouldBlock`, `onSuccess`,
`onFailure`) moves the state only along the allowed transitions:
`Closed → Closed|Open`, `Open → Open|HalfOpen`,
`HalfOpen → HalfOpen|Open|Closed`. -/
theorem c7_breaker_transitions (cb : CircuitBreaker) (now : ℤ) :
    CBAllowed cb.state ((cb.shouldBlock now).2).state ∧
    CBAllowed cb.state ((cb.onSuccess now)).state ∧
    CBAllowed cb.state ((cb.onFailure now)).state :=
  ⟨cbAllowed_shouldBlock cb now, cbAllowed_onSuccess cb now, cbAllowed_onFailure cb now⟩

/-- C7 witness: instantiation at a concrete breaker and time. -/
theorem c7_breaker_transitions_witness :
    CBAllowed CircuitBreaker.init.state
      ((CircuitBreaker.init.shouldBlock 0).2).state :=
  (c7_breaker_transitions CircuitBreaker.init 0).1

/-- `n` consecutive `onFailure()` calls at time 0, starting from `cb`. -/
def iterateFailures : ℕ → CircuitBreaker → CircuitBreaker
  | 0, cb => cb
  | n + 1, cb => iterateFailures n (cb.onFailure 0)

/-- C8 counterexample: after ten failures the default breaker is reachably
`Open`; calling `getState()` once the open timer has expired mutates the
state to `HalfOpen`, so the read is not pure. -/
theorem c8_counterexample :
    (iterateFailures 10 CircuitBreaker.init).state = CBState.Open ∧
    (((iterateFailures 10 CircuitBreaker.init).getState 30000).2).state = CBState.HalfOpen ∧
    ((iterateFailures 10 CircuitBreaker.init).getState 30000).2 ≠
      iterateFailures 10 CircuitBreaker.init := by
  decide

/-- C8 (amended): `getState()` reports the pre-state's `state` and
`consecutiveFailures`, but its `isBlocking` field evaluates `shouldBlock()`,
whose state effect persists; the call leaves the breaker unchanged exactly
when it is not in `Open` with the open timer expired. -/
theorem c8_getState_frame (cb : CircuitBreaker) (now : ℤ) :
    (cb.getState now).1.1 = cb.state ∧
    (cb.getState now).1.2.1 = cb.consecutiveFailures ∧
    (cb.getState now).2 = (cb.shouldBlock now).2 ∧
    (¬ (cb.state = CBState.Open ∧ cb.openDurationMs ≤ now - cb.openedAt) →
      (cb.getState now).2 = cb) := by
  refine ⟨rfl, rfl, rfl, ?_⟩
  intro h
  unfold CircuitBreaker.getState CircuitBreaker.shouldBlock
  split_ifs with h1 h2
  · exact absurd ⟨h1, h2⟩ h
  · rfl
  · rfl

/-- C8 witness: a closed breaker is left untouched by `getState()`. -/
theorem c8_getState_frame_witness :
    (CircuitBreaker.init.getState 0).2 = CircuitBreaker.init :=
  (c8_getState_frame CircuitBreaker.init 0).2.2.2 (by decide)

/-! ## AIMD controller (lib/AIMDController.js) -/

/-- State of `AIMDController`: the rate bounds, AIMD parameters, thresholds,
and warmup bookkeeping from the constructor. -/
structure AIMDController where
  currentRate : ℚ
  minRate : ℚ
  maxRate : ℚ
  additiveStep : ℚ
  multiplicativeFactor : ℚ
  errorThreshold : ℚ
  latencyThreshold : ℚ
  warmupDuration : ℚ
  warmupRate : ℚ
  startTime : ℚ
  warmupComplete : Bool
deriving DecidableEq, Repr

/-- `new AIMDController()` with all defaults, started at time `t0`. -/
def AIMDController.default (t0 : ℚ) : AIMDController :=
  { currentRate := 5, minRate := 1, maxRate := 100, additiveStep := 1,
    multiplicativeFactor := 1/2, errorThreshold := 5/100, latencyThreshold := 400,
    warmupDuration := 60000, warmupRate := 1, startTime := t0,
    warmupComplete := false }

/-- `update(errorRate, p95Latency)` at time `now`: during warmup return
`warmupRate` without touching the state; on the first post-warmup call mark
warmup complete; then apply multiplicative decrease on bad signals
(`errorRate > errorThreshold` or `p95Latency > latencyThreshold`) and
additive increase otherwise, returning the new rate. -/
def AIMDController.update (c : AIMDController) (now errorRate p95Latency : ℚ) :
    ℚ × AIMDController :=
  if c.warmupComplete = false ∧ now - c.startTime < c.warmupDuration then
    (c.warmupRate, c)
  else
    let c := if c.warmupComplete = false then { c with warmupComplete := true } else c
    if c.errorThreshold < errorRate ∨ c.latencyThreshold < p95Latency then
      let c := { c with
        currentRate := max c.minRate ((⌊c.currentRate * c.multiplicativeFactor⌋ : ℤ) : ℚ) }
      (c.currentRate, c)
    else
      let c := { c with currentRate := min c.maxRate (c.currentRate + c.additiveStep) }
      (c.currentRate, c)

/-- `getCurrentRate()` at time `now`: `warmupRate` during warmup, otherwise
`currentRate`. -/
def AIMDController.getCurrentRate (c : AIMDController) (now : ℚ) : ℚ :=
  if c.warmupComplete = false ∧ now - c.startTime < c.warmupDuration then
    c.warmupRate
  else c.currentRate

/-- The post-warmup AIMD rule as the claim states it, with the default
multiplicative factor 0.5 written out. -/
def aimdNextRate (c : AIMDController) (errorRate p95Latency : ℚ) : ℚ :=
  if c.errorThreshold < errorRate ∨ c.latencyThreshold < p95Latency then
    max c.minRate ((⌊c.currentRate * (1/2)⌋ : ℤ) : ℚ)
  else
    min c.maxRate (c.currentRate + c.additiveStep)

theorem update_post_warmup_eq (c : AIMDController) (now errorRate p95Latency : ℚ)
    (hw : c.warmupComplete = true) (hm : c.multiplicativeFactor = 1/2) :
    (c.update now errorRate p95Latency).1 = aimdNextRate c errorRate p95Latency ∧
    ((c.update now errorRate p95Latency).2).currentRate =
      aimdNextRate c errorRate p95Latency := by
  unfold AIMDController.update aimdNextRate
  norm_num [hw, hm]
  split_ifs with h <;> exact ⟨rfl, rfl⟩

/-- C3: once warmup is complete, `update` sets `currentRate` to
`max(minRate, floor(currentRate * 0.5))` on bad signals and to
`min(maxRate, currentRate + additiveStep)` on good signals, and returns the
new rate.  (`multiplicativeFactor` is fixed at its default 0.5, as in the
claim.) -/
theorem c3_update_post_warmup (c : AIMDController) (now errorRate p95Latency : ℚ)
    (hw : c.warmupComplete = true) (hm : c.multiplicativeFactor = 1/2) :
    (c.update now errorRate p95Latency).1 = aimdNextRate c errorRate p95Latency ∧
    ((c.update now errorRate p95Latency).2).currentRate =
      aimdNextRate c errorRate p95Latency :=
  update_post_warmup_eq c now errorRate p95Latency hw hm

/-- C3 witness: the default controller after warmup, on a bad error-rate
signal, halves its rate from 5 to 2. -/
theorem c3_update_post_warmup_witness :
    (({ AIMDController.default 0 with warmupComplete := true }).update 70000 (1/10) 30).1 =
      aimdNextRate { AIMDController.default 0 with warmupComplete := true } (1/10) 30 :=
  (c3_update_post_warmup { AIMDController.default 0 with warmupComplete := true }
    70000 (1/10) 30 rfl rfl).1

/-- C4: after warmup, with the spec's data-model constraints
(`1 ≤ minRate ≤ currentRate ≤ maxRate`, positive `additiveStep`, default
factor 0.5): bad signals strictly decrease `currentRate` unless it is at
`minRate`, and good signals strictly increase it unless it is at `maxRate`. -/
theorem c4_aimd_monotone (c : AIMDController) (now errorRate p95Latency : ℚ)
    (hw : c.warmupComplete = true) (hm : c.multiplicativeFactor = 1/2)
    (hmin1 : 1 ≤ c.minRate) (hlo : c.minRate ≤ c.currentRate)
    (hhi : c.currentRate ≤ c.maxRate) (hstep : 0 < c.additiveStep) :
    ((c.errorThreshold < errorRate ∨ c.latencyThreshold < p95Latency) →
      c.currentRate ≠ c.minRate →
      ((c.update now errorRate p95Latency).2).currentRate < c.currentRate) ∧
    (¬ (c.errorThreshold < errorRate ∨ c.latencyThreshold < p95Latency) →
      c.currentRate ≠ c.maxRate →
      ((c.update now errorRate p95Latency).2).currentRate > c.currentRate) := by
  have hres := update_post_warmup_eq c now errorRate p95Latency hw hm
  rw [hres.2]
  unfold aimdNextRate
  constructor
  · intro hbad hne
    rw [if_pos hbad]
    have hpos : 0 < c.currentRate := lt_of_lt_of_le (by linarith) hlo
    have hfl : ((⌊c.currentRate * (1/2)⌋ : ℤ) : ℚ) < c.currentRate := by
      have h1 : ((⌊c.currentRate * (1/2)⌋ : ℤ) : ℚ) ≤ c.currentRate * (1/2) :=
        Int.floor_le _
      nlinarith
    have hminlt : c.minRate < c.currentRate := lt_of_le_of_ne hlo (Ne.symm hne)
    exact max_lt hminlt hfl
  · intro hgood hne
    rw [if_neg hgood]
    have hmaxlt : c.currentRate < c.maxRate := lt_of_le_of_ne hhi hne
    exact lt_min hmaxlt (by linarith)

/-- C4 witness: at rate 5 with bad signals the default post-warmup
controller strictly decreases its rate. -/
theorem c4_aimd_monotone_witness :
    ((({ AIMDController.default 0 with warmupComplete := true }).update
        70000 (1/10) 30).2).currentRate <
      ({ AIMDController.default 0 with warmupComplete := true }).currentRate :=
  (c4_aimd_monotone { AIMDController.default 0 with warmupComplete := true }
      70000 (1/10) 30 rfl rfl (by norm_num [AIMDController.default])
      (by norm_num [AIMDController.default]) (by norm_num [AIMDController.default])
      (by norm_num [AIMDController.default])).1
    (Or.inl (by norm_num [AIMDController.default]))
    (by norm_num [AIMDController.default])

/-- C5: while warmup is unfinished and `now - startTime < warmupDuration`,
`update` returns `warmupRate` and leaves the whole controller state (in
particular `currentRate`) unchanged, and `getCurrentRate` also returns
`warmupRate`. -/
theorem c5_warmup_pinning (c : AIMDController) (now errorRate p95Latency : ℚ)
    (hw : c.warmupComplete = false) (ht : now - c.startTime < c.warmupDuration) :
    (c.update now errorRate p95Latency).1 = c.warmupRate ∧
    (c.update now errorRate p95Latency).2 = c ∧
    c.getCurrentRate now = c.warmupRate := by
  unfold AIMDController.update AIMDController.getCurrentRate
  rw [if_pos ⟨hw, ht⟩, if_pos ⟨hw, ht⟩]
  exact ⟨rfl, rfl, rfl⟩

/-- C5 witness: the freshly constructed default controller is pinned to the
warmup rate 1 during its first minute. -/
theorem c5_warmup_pinning_witness :
    ((AIMDController.default 0).update 30000 0 0).1 = (AIMDController.default 0).warmupRate :=
  (c5_warmup_pinning (AIMDController.default 0) 30000 0 0 rfl
    (by norm_num [AIMDController.default])).1

/-- C2 counterexample: the refill step does not clamp `now - lastRefill`.
A bucket created at time 2000 and operated at time 0 (clock moved backwards)
ends with `tokens = -5`, violating `0 ≤ tokens`. -/
theorem c2_counterexample :
    (((TokenBucket.init 5 2000).tryTake 0).2).tokens = -5 ∧
    ¬ (0 ≤ (((TokenBucket.init 5 2000).tryTake 0).2).tokens) := by
  norm_num [TokenBucket.init, TokenBucket.tryTake, TokenBucket.refill]

/-- C2 (amended): the refill step does not clamp the elapsed time; under a
monotone clock (each operation's timestamp at or after the bucket's
`lastRefill`) and non-negative installed rates, `0 ≤ tokens ≤ capacity`
holds after every operation of the sequence. -/
theorem c2_pacer_invariant (b : TokenBucket) (ops : List PacerOp)
    (hb : b.Inv) (hv : ValidPacerOps b ops) :
    ∀ pre post : List PacerOp, ops = pre ++ post →
      0 ≤ (applyPacerOps b pre).tokens ∧
      (applyPacerOps b pre).tokens ≤ (applyPacerOps b pre).capacity := by
  intro pre post h
  subst h
  have h' := applyPacerOps_inv pre b hb (validPacerOps_append_left b pre post hv)
  exact ⟨h'.1, h'.2.1⟩

/-- C2 witness: a fresh 5-token bucket, one `tryTake` 100 ms later. -/
theorem c2_pacer_invariant_witness :
    0 ≤ (applyPacerOps (TokenBucket.init 5 0) [PacerOp.tryTake 100]).tokens ∧
    (applyPacerOps (TokenBucket.init 5 0) [PacerOp.tryTake 100]).tokens ≤
      (applyPacerOps (TokenBucket.init 5 0) [PacerOp.tryTake 100]).capacity :=
  c2_pacer_invariant (TokenBucket.init 5 0) [PacerOp.tryTake 100]
    (by norm_num [TokenBucket.Inv, TokenBucket.init])
    (by norm_num [ValidPacerOps, PacerOp.Valid, TokenBucket.init])
    [PacerOp.tryTake 100] [] rfl

/-! ## Sliding window collector (lib/SlidingWindow.js) -/

/-- One recorded point: `(timestamp, latency, success)`. -/
structure WindowPoint where
  timestamp : ℤ
  latency : ℕ
  success : Bool
deriving DecidableEq, Repr

/-- State of `SlidingWindow`: the retention duration, the FIFO list of
points, and the lifetime counters. -/
structure SlidingWindow where
  windowMs : ℤ
  dataPoints : List WindowPoint
  totalCount : ℕ
  successCount : ℕ
deriving DecidableEq, Repr

/-- `cleanup()` at time `now`: repeatedly shift points from the front while
`timestamp < now - windowMs`. -/
def SlidingWindow.cleanup (w : SlidingWindow) (now : ℤ) : SlidingWindow :=
  { w with dataPoints :=
      w.dataPoints.dropWhile (fun p => decide (p.timestamp < now - w.windowMs)) }

/-- `record(latencyMs, success)` at time `now`: append the point, bump the
lifetime counters, then clean up. -/
def SlidingWindow.record (w : SlidingWindow) (now : ℤ) (latencyMs : ℕ)
    (success : Bool) : SlidingWindow :=
  SlidingWindow.cleanup
    { w with dataPoints := w.dataPoints ++ [⟨now, latencyMs, success⟩],
             totalCount := w.totalCount + 1,
             successCount := w.successCount + (if success then 1 else 0) } now

/-- `getErrorRate()` at time `now`: clean up, then failures over count;
0 on an empty window. -/
def SlidingWindow.getErrorRate (w : SlidingWindow) (now : ℤ) : ℚ :=
  let w' := w.cleanup now
  if w'.dataPoints.length = 0 then 0
  else ((w'.dataPoints.filter (fun p => !p.success)).length : ℚ) /
    (w'.dataPoints.length : ℚ)

/-- `getP95Latency()` at time `now`: clean up, sort the latencies ascending,
index at `Math.floor(length * 0.95)`; 0 on an empty window. -/
def SlidingWindow.getP95Latency (w : SlidingWindow) (now : ℤ) : ℕ :=
  let w' := w.cleanup now
  if w'.dataPoints.length = 0 then 0
  else
    let latencies := List.insertionSort (· ≤ ·) (w'.dataPoints.map WindowPoint.latency)
    latencies.getD (⌊(latencies.length : ℚ) * (95 / 100)⌋).toNat 0

/-- The points the claim calls un-evicted: age at most `windowMs`. -/
def keptPoints (w : SlidingWindow) (now : ℤ) : List WindowPoint :=
  w.dataPoints.filter (fun p => decide (now - p.timestamp ≤ w.windowMs))

theorem dropWhile_lt_eq_filter (c : ℤ) (f : WindowPoint → ℤ) (l : List WindowPoint)
    (hs : l.Pairwise (fun a b => f a ≤ f b)) :
    l.dropWhile (fun a => decide (f a < c)) = l.filter (fun a => decide (c ≤ f a)) := by
  induction l with
  | nil => rfl
  | cons a l ih =>
    rcases List.pairwise_cons.mp hs with ⟨ha, hl⟩
    by_cases h : f a < c
    · have h2 : ¬ c ≤ f a := not_le.mpr h
      simp [List.dropWhile_cons, List.filter_cons, h, h2, ih hl]
    · have hc : c ≤ f a := not_lt.mp h
      have hall : ∀ x ∈ l, c ≤ f x := fun x hx => le_trans hc (ha x hx)
      simp [List.dropWhile_cons, List.filter_cons, h, hc]
      exact (List.filter_eq_self.mpr (fun x hx => by simpa using hall x hx)).symm

/-- After `cleanup`, a timestamp-sorted window retains exactly the points of
age at most `windowMs`. -/
theorem cleanup_eq_keptPoints (w : SlidingWindow) (now : ℤ)
    (hs : w.dataPoints.Pairwise (fun a b => a.timestamp ≤ b.timestamp)) :
    (w.cleanup now).dataPoints = keptPoints w now := by
  unfold SlidingWindow.cleanup keptPoints
  rw [dropWhile_lt_eq_filter (now - w.windowMs) WindowPoint.timestamp w.dataPoints hs]
  exact List.filter_congr (fun p _ => by
    simp only [decide_eq_decide]
    omega)

theorem p95_index_lt (n : ℕ) (hn : 0 < n) : (⌊(n : ℚ) * (95 / 100)⌋).toNat < n := by
  have h0 : (0 : ℚ) < n := by exact_mod_cast hn
  have h1 : (n : ℚ) * (95 / 100) < n := by nlinarith
  have h2 : ⌊(n : ℚ) * (95 / 100)⌋ < (n : ℤ) := by
    rw [Int.floor_lt]
    push_cast
    exact h1
  omega

/-- C6: on a timestamp-sorted window, `getErrorRate` is failures over count
of the points of age at most `windowMs`, `getP95Latency` is the entry at
index `floor(n * 0.95)` of the sorted latency list of those `n` points, and
both are 0 when no point survives. -/
theorem c6_window_honesty (w : SlidingWindow) (now : ℤ)
    (hs : w.dataPoints.Pairwise (fun a b => a.timestamp ≤ b.timestamp)) :
    (keptPoints w now = [] → w.getErrorRate now = 0 ∧ w.getP95Latency now = 0) ∧
    (keptPoints w now ≠ [] →
      w.getErrorRate now =
        (((keptPoints w now).filter (fun p => decide (p.success = false))).length : ℚ) /
          ((keptPoints w now).length : ℚ) ∧
      ∃ L : List ℕ, L.Perm ((keptPoints w now).map WindowPoint.latency) ∧
        L.Sorted (· ≤ ·) ∧ (⌊(L.length : ℚ) * (95 / 100)⌋).toNat < L.length ∧
        w.getP95Latency now = L.getD (⌊(L.length : ℚ) * (95 / 100)⌋).toNat 0) := by
  have hk := cleanup_eq_keptPoints w now hs
  constructor
  · intro he
    unfold SlidingWindow.getErrorRate SlidingWindow.getP95Latency
    simp [hk, he]
  · intro he
    have hlen : (keptPoints w now).length ≠ 0 := fun h => he (List.length_eq_zero.mp h)
    constructor
    · have hf : (keptPoints w now).filter (fun p => !p.success) =
          (keptPoints w now).filter (fun p => decide (p.success = false)) :=
        List.filter_congr (fun p _ => by cases hp : p.success <;> simp [hp])
      unfold SlidingWindow.getErrorRate
      simp only [hk]
      rw [if_neg hlen, hf]
    · refine ⟨List.insertionSort (· ≤ ·) ((keptPoints w now).map WindowPoint.latency),
        List.perm_insertionSort _ _, List.sorted_insertionSort _ _, ?_, ?_⟩
      · rw [(List.perm_insertionSort (· ≤ ·)
            ((keptPoints w now).map WindowPoint.latency)).length_eq,
          List.length_map]
        exact p95_index_lt _ (Nat.pos_of_ne_zero hlen)
      · unfold SlidingWindow.getP95Latency
        simp [hk, hlen]

/-- C6 witness: a two-point window read at time 10000; both points survive
and the error rate is the claimed ratio. -/
theorem c6_window_honesty_witness :
    (SlidingWindow.mk 30000 [⟨0, 100, true⟩, ⟨10000, 50, false⟩] 2 1).getErrorRate 10000 =
      (((keptPoints (SlidingWindow.mk 30000 [⟨0, 100, true⟩, ⟨10000, 50, false⟩] 2 1)
          10000).filter (fun p => decide (p.success = false))).length : ℚ) /
        ((keptPoints (SlidingWindow.mk 30000 [⟨0, 100, true⟩, ⟨10000, 50, false⟩] 2 1)
          10000).length : ℚ) :=
  ((c6_window_honesty (SlidingWindow.mk 30000 [⟨0, 100, true⟩, ⟨10000, 50, false⟩] 2 1)
      10000 (by decide)).2 (by decide)).1

/-! ## Retry strategy (lib/RetryStrategy.js) -/

/-- The three jitter modes. -/
inductive JitterType where
  | random
  | full
  | decorrelated
deriving DecidableEq, Repr

/-- State of `RetryStrategy`: constructor options plus `lastDelay` (tracked
for decorrelated jitter). -/
structure RetryStrategy where
  baseDelayMs : ℚ
  maxDelayMs : ℚ
  exponentialBase : ℚ
  jitterMs : ℚ
  jitterType : JitterType
  maxAttempts : ℕ
  lastDelay : ℚ
deriving DecidableEq, Repr

/-- `new RetryStrategy()` with all defaults. -/
def RetryStrategy.default : RetryStrategy :=
  { baseDelayMs := 1000, maxDelayMs := 300000, exponentialBase := 2,
    jitterMs := 1000, jitterType := .random, maxAttempts := 8, lastDelay := 0 }

/-- `getJitter()`: `Math.floor(Math.random() * jitterMs)`, with the
`Math.random()` draw `r` passed explicitly. -/
def RetryStrategy.getJitter (s : RetryStrategy) (r : ℚ) : ℚ :=
  ((⌊r * s.jitterMs⌋ : ℤ) : ℚ)

/-- JavaScript truthiness of the guard `retryAfterMs && retryAfterMs > 0`. -/
def retryAfterHonored : Option ℚ → Prop
  | some ra => ra ≠ 0 ∧ 0 < ra
  | none => False

instance (o : Option ℚ) : Decidable (retryAfterHonored o) :=
  match o with
  | some ra => inferInstanceAs (Decidable (ra ≠ 0 ∧ 0 < ra))
  | none => inferInstanceAs (Decidable False)

/-- The exponential-backoff fall-through of `getDelay` (everything after the
early `retryAfterMs` return): capped exponential delay, jitter by mode, then
`Math.min(Math.floor(finalDelay), maxDelayMs)`.  `r1` is the draw consumed
by `getJitter`, `r2` the draw consumed directly in the `full`/`decorrelated`
branches; the decorrelated branch records `lastDelay`. -/
def RetryStrategy.getDelayBackoff (s : RetryStrategy) (attemptNumber : ℤ)
    (r1 r2 : ℚ) : ℚ × RetryStrategy :=
  let exponentialDelay :=
    min (s.baseDelayMs * s.exponentialBase ^ (attemptNumber - 1)) s.maxDelayMs
  match s.jitterType with
  | .full => (min ((⌊r2 * exponentialDelay⌋ : ℤ) : ℚ) s.maxDelayMs, s)
  | .decorrelated =>
    let minDelay := s.baseDelayMs
    let maxDelay := min (exponentialDelay * 3) s.maxDelayMs
    let finalDelay := r2 * (maxDelay - minDelay) + minDelay
    (min ((⌊finalDelay⌋ : ℤ) : ℚ) s.maxDelayMs, { s with lastDelay := finalDelay })
  | .random =>
    (min ((⌊exponentialDelay + s.getJitter r1⌋ : ℤ) : ℚ) s.maxDelayMs, s)

/-- `getDelay(attemptNumber, retryAfterMs)`: when the server supplied a
positive `retryAfterMs`, return `retryAfterMs + getJitter()` immediately
(neither floored nor capped); otherwise fall through to the backoff path. -/
def RetryStrategy.getDelay (s : RetryStrategy) (attemptNumber : ℤ)
    (retryAfterMs : Option ℚ) (r1 r2 : ℚ) : ℚ × RetryStrategy :=
  if retryAfterHonored retryAfterMs then
    (retryAfterMs.getD 0 + s.getJitter r1, s)
  else s.getDelayBackoff attemptNumber r1 r2

/-- C10: with a positive `retryAfterMs` and a jitter draw `r1 ∈ [0, 1)`,
`getDelay` returns exactly `retryAfterMs + j` for an integer
`0 ≤ j < jitterMs`; this value is not capped (it exceeds `maxDelayMs`
whenever `retryAfterMs + j` does), while every non-retry-after path is
capped at `maxDelayMs`. -/
theorem c10_retry_after_uncapped (s : RetryStrategy) (attemptNumber : ℤ)
    (ra r1 r2 : ℚ) (hra : 0 < ra) (h0 : 0 ≤ r1) (h1 : r1 < 1)
    (hj : 0 < s.jitterMs) :
    (∃ j : ℤ, (s.getDelay attemptNumber (some ra) r1 r2).1 = ra + (j : ℚ) ∧
      0 ≤ j ∧ (j : ℚ) < s.jitterMs) ∧
    (s.maxDelayMs < ra + s.getJitter r1 →
      s.maxDelayMs < (s.getDelay attemptNumber (some ra) r1 r2).1) ∧
    (∀ o : Option ℚ, ¬ retryAfterHonored o →
      (s.getDelay attemptNumber o r1 r2).1 ≤ s.maxDelayMs) := by
  have hhon : retryAfterHonored (some ra) := ⟨ne_of_gt hra, hra⟩
  have heq : (s.getDelay attemptNumber (some ra) r1 r2).1 = ra + s.getJitter r1 := by
    unfold RetryStrategy.getDelay
    rw [if_pos hhon]
    rfl
  refine ⟨⟨⌊r1 * s.jitterMs⌋, ?_, ?_, ?_⟩, ?_, ?_⟩
  · rw [heq]; rfl
  · exact Int.floor_nonneg.mpr (mul_nonneg h0 (le_of_lt hj))
  · calc ((⌊r1 * s.jitterMs⌋ : ℤ) : ℚ) ≤ r1 * s.jitterMs := Int.floor_le _
      _ < 1 * s.jitterMs := by apply mul_lt_mul_of_pos_right h1 hj
      _ = s.jitterMs := one_mul _
  · intro hcap
    rw [heq]
    exact hcap
  · intro o ho
    unfold RetryStrategy.getDelay
    rw [if_neg ho]
    unfold RetryStrategy.getDelayBackoff
    cases s.jitterType <;> simp

/-- C10 witness: `retryAfterMs = 299999.5` with `r1 = 1/2` under defaults
yields `300499.5 > maxDelayMs = 300000`. -/
theorem c10_retry_after_uncapped_witness :
    ∃ j : ℤ,
      (RetryStrategy.default.getDelay 1 (some (599999/2)) (1/2) 0).1 =
        599999/2 + (j : ℚ) ∧ 0 ≤ j ∧ (j : ℚ) < RetryStrategy.default.jitterMs :=
  (c10_retry_after_uncapped RetryStrategy.default 1 (599999/2) (1/2) 0
      (by norm_num) (by norm_num) (by norm_num)
      (by norm_num [RetryStrategy.default])).1

/-- The error value observed in `execute`'s catch: an optional HTTP status
and an optional `retryAfterMs` hint. -/
structure RetryError where
  status : Option ℤ
  retryAfterMs : Option ℚ
deriving DecidableEq, Repr

/-- `shouldRetry(attemptNumber, error)`: stop at `maxAttempts`; stop on a
client error (status in 4xx other than 429); a missing status (or missing
error) is retriable. -/
def RetryStrategy.shouldRetry (s : RetryStrategy) (attemptNumber : ℕ)
    (error : Option RetryError) : Bool :=
  if s.maxAttempts ≤ attemptNumber then false
  else
    match error with
    | some e =>
      match e.status with
      | some st => !(decide (400 ≤ st) && decide (st < 500) && decide (st ≠ 429))
      | none => true
    | none => true

/-- Result of one invocation of the wrapped function `fn`: a value, or a
thrown error. -/
inductive AttemptResult (α : Type) where
  | ok (v : α)
  | err (e : RetryError)
deriving DecidableEq, Repr

/-- The object returned by `execute`. -/
structure ExecResult (α : Type) where
  success : Bool
  result : Option α
  error : Option RetryError
  attempts : ℕ
deriving DecidableEq, Repr

/-- An attempt outcome that is a non-retriable client rejection
(HTTP status in 4xx and not 429). -/
def clientRejectResult {α : Type} : AttemptResult α → Prop
  | .ok _ => False
  | .err e =>
    match e.status with
    | some st => 400 ≤ st ∧ st < 500 ∧ st ≠ 429
    | none => False

/-- The `for` loop of `execute(fn)`, with `fn` given as an oracle from the
attempt number to its outcome.  `fuel = maxAttempts - attempt + 1` counts
the remaining iterations (the fuel-0 base case is the loop exiting).
Returns the result object together with the number of invocations of `fn`
actually made.  The per-iteration `getDelay`/`sleep` is omitted: its only
state effect is `lastDelay`, which no control path reads. -/
def RetryStrategy.executeLoop {α : Type} (s : RetryStrategy)
    (fn : ℕ → AttemptResult α) : ℕ → ℕ → Option RetryError → ExecResult α × ℕ
  | _, 0, lastError => (⟨false, none, lastError, s.maxAttempts⟩, 0)
  | attempt, fuel + 1, _ =>
    match fn attempt with
    | .ok v => (⟨true, some v, none, attempt⟩, 1)
    | .err e =>
      if s.shouldRetry attempt (some e) then
        ((s.executeLoop fn (attempt + 1) fuel (some e)).1,
          (s.executeLoop fn (attempt + 1) fuel (some e)).2 + 1)
      else (⟨false, none, some e, s.maxAttempts⟩, 1)

/-- `execute(fn)`: run the loop from attempt 1. -/
def RetryStrategy.execute {α : Type} (s : RetryStrategy)
    (fn : ℕ → AttemptResult α) : ExecResult α × ℕ :=
  s.executeLoop fn 1 s.maxAttempts none

theorem executeLoop_invocations_le {α : Type} (s : RetryStrategy)
    (fn : ℕ → AttemptResult α) :
    ∀ fuel attempt last, (s.executeLoop fn attempt fuel last).2 ≤ fuel := by
  intro fuel
  induction fuel with
  | zero => intro attempt last; simp [RetryStrategy.executeLoop]
  | succ fuel ih =>
    intro attempt last
    unfold RetryStrategy.executeLoop
    cases fn attempt with
    | ok v => simp
    | err e =>
      dsimp only
      split
      · have := ih (attempt + 1) (some e)
        simpa using Nat.succ_le_succ this
      · simp

theorem executeLoop_no_reject {α : Type} (s : RetryStrategy)
    (fn : ℕ → AttemptResult α) :
    ∀ fuel attempt last j, attempt ≤ j →
      j + 1 < attempt + (s.executeLoop fn attempt fuel last).2 →
      ¬ clientRejectResult (fn j) := by
  intro fuel
  induction fuel with
  | zero =>
    intro attempt last j hj hlt
    simp [RetryStrategy.executeLoop] at hlt
    omega
  | succ fuel ih =>
    intro attempt last j hj hlt
    unfold RetryStrategy.executeLoop at hlt
    cases hfn : fn attempt with
    | ok v =>
      rw [hfn] at hlt
      simp at hlt
      omega
    | err e =>
      rw [hfn] at hlt
      dsimp only at hlt
      by_cases hr : s.shouldRetry attempt (some e) = true
      · rw [if_pos hr] at hlt
        rcases Nat.lt_or_ge j (attempt + 1) with hlt' | hge
        · have hje : j = attempt := by omega
          subst hje
          rw [hfn]
          intro hcr
          unfold RetryStrategy.shouldRetry at hr
          unfold clientRejectResult at hcr
          split at hr
          · exact Bool.false_ne_true hr
          · cases e with
            | mk st rams =>
              cases st with
              | none => simp at hcr
              | some v =>
                simp at hr hcr
                omega
        · exact ih (attempt + 1) (some e) j hge (by omega)
      · rw [if_neg hr] at hlt
        simp at hlt
        omega

theorem executeLoop_attempts_field {α : Type} (s : RetryStrategy)
    (fn : ℕ → AttemptResult α) :
    ∀ fuel attempt last,
      ((s.executeLoop fn attempt fuel last).1.success = true →
        (s.executeLoop fn attempt fuel last).1.attempts + 1 =
          attempt + (s.executeLoop fn attempt fuel last).2) ∧
      ((s.executeLoop fn attempt fuel last).1.success = false →
        (s.executeLoop fn attempt fuel last).1.attempts = s.maxAttempts) := by
  intro fuel
  induction fuel with
  | zero =>
    intro attempt last
    simp [RetryStrategy.executeLoop]
  | succ fuel ih =>
    intro attempt last
    unfold RetryStrategy.executeLoop
    cases hfn : fn attempt with
    | ok v => simp
    | err e =>
      dsimp only
      split
      · constructor
        · intro hs
          have h1 := (ih (attempt + 1) (some e)).1 (by simpa using hs)
          dsimp only
          omega
        · intro hs
          exact (ih (attempt + 1) (some e)).2 (by simpa using hs)
      · simp

/-- C9 (amended): `execute(fn)` invokes `fn` at most `maxAttempts` times and
never again after a client rejection (4xx other than 429); the returned
`attempts` field equals the number of invocations on success, but on any
failure it is reported as `maxAttempts`, even when a client rejection
stopped the loop after fewer invocations. -/
theorem c9_execute_contract {α : Type} (s : RetryStrategy)
    (fn : ℕ → AttemptResult α) :
    (s.execute fn).2 ≤ s.maxAttempts ∧
    (∀ j : ℕ, 1 ≤ j → j < (s.execute fn).2 → ¬ clientRejectResult (fn j)) ∧
    ((s.execute fn).1.success = true →
      (s.execute fn).1.attempts = (s.execute fn).2) ∧
    ((s.execute fn).1.success = false →
      (s.execute fn).1.attempts = s.maxAttempts) := by
  unfold RetryStrategy.execute
  refine ⟨executeLoop_invocations_le s fn s.maxAttempts 1 none, ?_, ?_, ?_⟩
  · intro j hj hlt
    exact executeLoop_no_reject s fn s.maxAttempts 1 none j hj (by omega)
  · intro hs
    have h1 := (executeLoop_attempts_field s fn s.maxAttempts 1 none).1 hs
    omega
  · exact (executeLoop_attempts_field s fn s.maxAttempts 1 none).2

/-- C9 counterexample: a function that always throws 404 is invoked exactly
once (no retry on a client rejection), yet the returned `attempts` field
reports `maxAttempts = 8`, not the actual invocation count. -/
theorem c9_counterexample :
    (RetryStrategy.default.execute
        (fun _ => AttemptResult.err ⟨some 404, none⟩ : ℕ → AttemptResult Unit)).2 = 1 ∧
    (RetryStrategy.default.execute
        (fun _ => AttemptResult.err ⟨some 404, none⟩ : ℕ → AttemptResult Unit)).1.attempts = 8 ∧
    (RetryStrategy.default.execute
        (fun _ => AttemptResult.err ⟨some 404, none⟩ : ℕ → AttemptResult Unit)).1.attempts ≠
      (RetryStrategy.default.execute
        (fun _ => AttemptResult.err ⟨some 404, none⟩ : ℕ → AttemptResult Unit)).2 := by
  refine ⟨rfl, rfl, by decide⟩

/-- C9 witness: a first-try success under defaults. -/
theorem c9_execute_contract_witness :
    (RetryStrategy.default.execute
        (fun _ => AttemptResult.ok () : ℕ → AttemptResult Unit)).2 ≤
      RetryStrategy.default.maxAttempts :=
  (c9_execute_contract RetryStrategy.default (fun _ => AttemptResult.ok ())).1

/-! ## Dispatcher retry lifecycle (src/simulate.js) -/

namespace Simulate

/-- `RETRY_MAX` from simulate.js. -/
def RETRY_MAX : ℕ := 8

/-- Outcome of one `fakeChatServerAPI` call as observed by
`sendToChatServer`: a response `{ok: true}`, a response `{ok: false}` with
an HTTP status, or a thrown error. -/
inductive ApiResult where
  | ok
  | httpErr (status : ℕ) (retryAfterMs : Option ℕ)
  | thrown
deriving DecidableEq, Repr

/-- The in-flight retry loop of `sendToChatServer`, with the transport given
as an oracle from the attempt number (1-based) to its outcome.  Runs until
success, a client error (4xx other than 429), or `attempt >= RETRY_MAX`.
Returns whether the send succeeded and the number of transport attempts
made.  `fuel = RETRY_MAX - attemptPrev` bounds the remaining iterations;
the fuel-0 case is unreachable from `sendToChatServer` because the loop
stops at `attempt >= RETRY_MAX`. -/
def sendLoop (api : ℕ → ApiResult) : ℕ → ℕ → Bool × ℕ
  | _, 0 => (false, 0)
  | attemptPrev, fuel + 1 =>
    match api (attemptPrev + 1) with
    | .ok => (true, 1)
    | .httpErr s _ =>
      if RETRY_MAX ≤ attemptPrev + 1 ∨ (400 ≤ s ∧ s < 500 ∧ s ≠ 429) then (false, 1)
      else ((sendLoop api (attemptPrev + 1) fuel).1,
        (sendLoop api (attemptPrev + 1) fuel).2 + 1)
    | .thrown =>
      if RETRY_MAX ≤ attemptPrev + 1 then (false, 1)
      else ((sendLoop api (attemptPrev + 1) fuel).1,
        (sendLoop api (attemptPrev + 1) fuel).2 + 1)

/-- `sendToChatServer(row)`: the loop starting at `attempt = 0`. -/
def sendToChatServer (api : ℕ → ApiResult) : Bool × ℕ :=
  sendLoop api 0 RETRY_MAX

/-- Terminal item status of the dispatcher lifecycle. -/
inductive ItemStatus where
  | sent
  | dlq
deriving DecidableEq, Repr

/-- The dispatcher-cycle lifecycle of one item: each cycle calls
`sendToChatServer`; on success the item is marked sent; on failure `onFail`
computes `nextAttempt = attempt_count + 1` and either moves the item to the
DLQ (`nextAttempt >= RETRY_MAX`) or reschedules it with
`attempt_count = nextAttempt` for the next cycle.  `apis c` is the
transport oracle of the cycle executed with `attempt_count = c`.  Returns
the terminal status and the total number of transport attempts across all
cycles.  `fuel = RETRY_MAX - attemptCount` bounds the remaining cycles; the
fuel-0 case is unreachable because `onFail` dead-letters at
`nextAttempt >= RETRY_MAX`. -/
def itemLoop (apis : ℕ → ℕ → ApiResult) : ℕ → ℕ → ItemStatus × ℕ
  | _, 0 => (.dlq, 0)
  | attemptCount, fuel + 1 =>
    if (sendToChatServer (apis attemptCount)).1 then
      (.sent, (sendToChatServer (apis attemptCount)).2)
    else
      if RETRY_MAX ≤ attemptCount + 1 then
        (.dlq, (sendToChatServer (apis attemptCount)).2)
      else
        ((itemLoop apis (attemptCount + 1) fuel).1,
          (sendToChatServer (apis attemptCount)).2 +
            (itemLoop apis (attemptCount + 1) fuel).2)

/-- Full lifecycle of a freshly seeded item (`attempt_count = 0`). -/
def itemRun (apis : ℕ → ℕ → ApiResult) : ItemStatus × ℕ :=
  itemLoop apis 0 RETRY_MAX

theorem sendLoop_attempts_le (api : ℕ → ApiResult) :
    ∀ fuel attemptPrev, (sendLoop api attemptPrev fuel).2 ≤ fuel := by
  intro fuel
  induction fuel with
  | zero => intro attemptPrev; simp [sendLoop]
  | succ fuel ih =>
    intro attemptPrev
    unfold sendLoop
    cases hfn : api (attemptPrev + 1) with
    | ok => simp
    | httpErr s r =>
      dsimp only
      split
      · simp
      · simpa using Nat.succ_le_succ (ih (attemptPrev + 1))
    | thrown =>
      dsimp only
      split
      · simp
      · simpa using Nat.succ_le_succ (ih (attemptPrev + 1))

theorem sendToChatServer_attempts_le (api : ℕ → ApiResult) :
    (sendToChatServer api).2 ≤ RETRY_MAX :=
  sendLoop_attempts_le api RETRY_MAX 0

theorem itemLoop_attempts_le (apis : ℕ → ℕ → ApiResult) :
    ∀ fuel attemptCount,
      (itemLoop apis attemptCount fuel).2 ≤ fuel * RETRY_MAX := by
  intro fuel
  induction fuel with
  | zero => intro attemptCount; simp [itemLoop]
  | succ fuel ih =>
    intro attemptCount
    unfold itemLoop
    have hsend := sendToChatServer_attempts_le (apis attemptCount)
    split
    · calc (sendToChatServer (apis attemptCount)).2 ≤ RETRY_MAX := hsend
        _ ≤ (fuel + 1) * RETRY_MAX := Nat.le_mul_of_pos_left _ (Nat.succ_pos _)
    · split
      · calc (sendToChatServer (apis attemptCount)).2 ≤ RETRY_MAX := hsend
          _ ≤ (fuel + 1) * RETRY_MAX := Nat.le_mul_of_pos_left _ (Nat.succ_pos _)
      · have := ih (attemptCount + 1)
        have hmul : (fuel + 1) * RETRY_MAX = fuel * RETRY_MAX + RETRY_MAX :=
          Nat.succ_mul fuel RETRY_MAX
        dsimp only
        omega

/-- C1 counterexample: an item whose every transport attempt returns 503
makes 8 in-flight attempts in each of 8 dispatcher cycles — 64 transport
attempts in total, far more than `RETRY_MAX = 8` — before reaching the DLQ. -/
theorem c1_counterexample :
    itemRun (fun _ _ => ApiResult.httpErr 503 none) = (ItemStatus.dlq, 64) ∧
    ¬ ((itemRun (fun _ _ => ApiResult.httpErr 503 none)).2 ≤ RETRY_MAX) := by
  refine ⟨by decide, by decide⟩

/-- C1 (amended): the two retry layers are bounded separately — at most
`RETRY_MAX` in-flight transport attempts per dispatcher cycle and at most
`RETRY_MAX` cycles per item — so the total number of transport attempts an
item receives is at most `RETRY_MAX * RETRY_MAX = 64`, not `RETRY_MAX`. -/
theorem c1_total_attempts_bound (apis : ℕ → ℕ → ApiResult) :
    (∀ c : ℕ, (sendToChatServer (apis c)).2 ≤ RETRY_MAX) ∧
    (itemRun apis).2 ≤ RETRY_MAX * RETRY_MAX :=
  ⟨fun c => sendToChatServer_attempts_le (apis c),
    itemLoop_attempts_le apis RETRY_MAX 0⟩

/-- C1 witness: the all-503 item stays within the 64-attempt bound. -/
theorem c1_total_attempts_bound_witness :
    (itemRun (fun _ _ => ApiResult.httpErr 503 none)).2 ≤ RETRY_MAX * RETRY_MAX :=
  (c1_total_attempts_bound (fun _ _ => ApiResult.httpErr 503 none)).2

end Simulate
